import Mathlib

/-!
# App Service Certificate resource: a shallow embedding

Source: `internal/services/web/app_service_certificate_resource.go`.

The three CRUD entry points (`resourceAppServiceCertificateCreateUpdate`,
`resourceAppServiceCertificateRead`, `resourceAppServiceCertificateDelete`) are
embedded as pure functions that thread the resource data `d` and a `World`
(the state of the remote services together with the log of the calls issued so
far).  The remote services are arbitrary: every theorem quantifies over the
type of remote states and over the transition functions of the clients.
The schema declaration `ConflictsWith` of `key_vault_secret_id` (line 74) is
embedded as the validation that precedes Create/Update.
-/

set_option autoImplicit false

namespace AppServiceCertificate

/-! ## `encoding/base64`, `StdEncoding` -/

namespace Base64

/-- The standard alphabet (`encodeStd` in `encoding/base64`). -/
def encodeStd : List Char :=
  ['A', 'B', 'C', 'D', 'E', 'F', 'G', 'H', 'I', 'J', 'K', 'L', 'M',
   'N', 'O', 'P', 'Q', 'R', 'S', 'T', 'U', 'V', 'W', 'X', 'Y', 'Z',
   'a', 'b', 'c', 'd', 'e', 'f', 'g', 'h', 'i', 'j', 'k', 'l', 'm',
   'n', 'o', 'p', 'q', 'r', 's', 't', 'u', 'v', 'w', 'x', 'y', 'z',
   '0', '1', '2', '3', '4', '5', '6', '7', '8', '9', '+', '/']

/-- The padding character of `StdEncoding`. -/
def padChar : Char := '='

/-- Lookup `enc.encode[v]`; callers always pass `v < 64`. -/
def encodeChar (v : Nat) : Char := encodeStd.getD v 'A'

/-- Lookup `enc.decodeMap[in]`: the index of the character in the alphabet, and
`0xff` for every byte outside the alphabet. -/
def decodeMap (c : Char) : Nat :=
  if encodeStd.indexOf c < 64 then encodeStd.indexOf c else 0xff

/-- Body of `Encoding.Encode`: full three byte groups become four characters,
a remainder of one or two bytes is padded with `=`. -/
def encode : List Nat → List Char
  | b0 :: b1 :: b2 :: rest =>
    let val := b0 <<< 16 ||| b1 <<< 8 ||| b2
    encodeChar (val >>> 18 &&& 0x3F) :: encodeChar (val >>> 12 &&& 0x3F) ::
      encodeChar (val >>> 6 &&& 0x3F) :: encodeChar (val &&& 0x3F) :: encode rest
  | [b0, b1] =>
    let val := b0 <<< 16 ||| b1 <<< 8
    [encodeChar (val >>> 18 &&& 0x3F), encodeChar (val >>> 12 &&& 0x3F),
     encodeChar (val >>> 6 &&& 0x3F), padChar]
  | [b0] =>
    let val := b0 <<< 16
    [encodeChar (val >>> 18 &&& 0x3F), encodeChar (val >>> 12 &&& 0x3F), padChar, padChar]
  | [] => []

/-- The function `StdEncoding.EncodeToString`. -/
def EncodeToString (src : List Nat) : String := String.mk (encode src)

/-- The loops `for si < len(src) && (src[si] == '\n' || src[si] == '\r')`. -/
def skipNewlines : List Char → List Char
  | [] => []
  | c :: cs => if c = '\n' ∨ c = '\r' then skipNewlines cs else c :: cs

/-- Tail of `decodeQuantum`: the collected 6 bit values are packed into `val`
and the first `dlen - 1` of its three bytes are written (`StdEncoding` is not
strict, so the unused low bits are not inspected). -/
def quantumBytes (dbuf : List Nat) (dlen : Nat) : List Nat :=
  let val := dbuf.getD 0 0 <<< 18 ||| dbuf.getD 1 0 <<< 12 ||| dbuf.getD 2 0 <<< 6 ||| dbuf.getD 3 0
  [(val >>> 16) % 256, (val >>> 8) % 256, (val >>> 0) % 256].take (dlen - 1)

/-- The loop of `Encoding.Decode` over `decodeQuantum`, as one pass over the
input.  `dbuf` holds the 6 bit values of the quantum being read (its length is
the index `j`), `dst` the bytes decoded so far.  `none` stands for a returned
`CorruptInputError`. -/
def decodeLoop : List Char → List Nat → List Nat → Option (List Nat)
  | [], dbuf, dst =>
    -- `len(src) == si`: fine at `j == 0`, corrupt inside a quantum (padding is mandatory)
    if dbuf = [] then some dst else none
  | c :: cs, dbuf, dst =>
    let out := decodeMap c
    if out ≠ 0xff then
      if dbuf.length = 3 then decodeLoop cs [] (dst ++ quantumBytes (dbuf ++ [out]) 4)
      else decodeLoop cs (dbuf ++ [out]) dst
    else if c = '\n' ∨ c = '\r' then decodeLoop cs dbuf dst
    else if c ≠ padChar then none
    else
      match dbuf.length with
      | 0 => none
      | 1 => none
      | 2 =>
        -- "==" is expected, the first "=" is already consumed
        match skipNewlines cs with
        | [] => none
        | c2 :: cs2 =>
          if c2 ≠ padChar then none
          else if skipNewlines cs2 = [] then some (dst ++ quantumBytes dbuf 2)
          else none -- trailing garbage
      | _ =>
        if skipNewlines cs = [] then some (dst ++ quantumBytes dbuf 3)
        else none -- trailing garbage

/-- The function `StdEncoding.DecodeString`; `none` when the returned error is not nil. -/
def DecodeString (s : String) : Option (List Nat) := decodeLoop s.data [] []

end Base64

/-! ## Data model -/

/-- Go `error` values.  One constructor per `fmt.Errorf` site of the resource
(the source line is given), plus `other` for the errors handed back by the
collaborators (SDK clients, identity parsers, tag helpers). -/
inductive Err where
  /-- Line 152: neither `pfx_blob` nor `key_vault_secret_id` is set. -/
  | eitherMustBeSet
  /-- Line 159: the existence lookup failed with something else than not-found. -/
  | checkingPresence (name resourceGroup : String) (err : Err)
  /-- Line 164: the value of `tf.ImportAsExistsError(resourceName, id)`. -/
  | importAsExists (resourceName id : String)
  /-- Line 183: `pfx_blob` is not valid base64. -/
  | couldNotDecodePfxBlob
  /-- Line 198: the key vault lookup returned an error. -/
  | retrievingKeyVaultID (keyVaultBaseUrl : String) (err : Err)
  /-- Line 201: the key vault lookup returned no id. -/
  | unableToDetermineKeyVaultID (keyVaultBaseUrl : String)
  /-- Line 209: `CreateOrUpdate` failed. -/
  | creatingUpdating (name resourceGroup : String) (err : Err)
  /-- Line 214: the confirmation fetch failed. -/
  | retrieving (name resourceGroup : String) (err : Err)
  /-- Line 217: the confirmation fetch returned an object without id. -/
  | cannotReadID (name resourceGroup : String)
  /-- Line 242: the fetch of Read failed with something else than not-found. -/
  | makingReadRequest (name resourceGroup : String) (err : Err)
  /-- Line 284: `Delete` failed with something else than not-found. -/
  | deleting (name resourceGroup : String) (err : Err)
  /-- An error value produced outside this file. -/
  | other (msg : String)
  deriving DecidableEq

/-- What an entry point hands back to the host: the Go `error` (`nil` or an
error value), or a run-time panic caused by dereferencing a nil pointer. -/
inductive Ret where
  | nil
  | error (err : Err)
  | nilPointerDereference
  deriving DecidableEq

/-- An `autorest.Response`: the embedded `*http.Response` may be nil; when
present only its status code is observed. -/
structure Response where
  StatusCode : Option Nat := none
  deriving DecidableEq

/-- A `date.Time` of the SDK (a wrapper around `time.Time`). -/
structure DateTime where
  unixSeconds : Int
  offsetSeconds : Int
  deriving DecidableEq

/-- The part of `web.HostingEnvironmentProfile` the resource reads. -/
structure HostingEnvironmentProfile where
  ID : Option String := none
  deriving DecidableEq

/-- The fields of `web.CertificateProperties` the resource reads or writes.
Every field is a pointer in the SDK, hence an `Option` here. -/
structure CertificateProperties where
  Password : Option String := none
  FriendlyName : Option String := none
  SubjectName : Option String := none
  HostNames : Option (List String) := none
  PfxBlob : Option (List Nat) := none
  Issuer : Option String := none
  IssueDate : Option DateTime := none
  ExpirationDate : Option DateTime := none
  Thumbprint : Option String := none
  KeyVaultID : Option String := none
  KeyVaultSecretName : Option String := none
  ServerFarmID : Option String := none
  HostingEnvironmentProfile : Option HostingEnvironmentProfile := none
  deriving DecidableEq

/-- The fields of `web.Certificate` the resource reads or writes. -/
structure Certificate where
  Response : Response := {}
  CertificateProperties : Option CertificateProperties := none
  ID : Option String := none
  Name : Option String := none
  Location : Option String := none
  Tags : List (String × Option String) := []
  deriving DecidableEq

/-- Result of `parse.CertificateID`. -/
structure CertificateId where
  ResourceGroup : String
  Name : String
  deriving DecidableEq

/-- The fields of the result of `keyVaultParse.ParseNestedItemID` that are used. -/
structure NestedItemId where
  KeyVaultBaseUrl : String
  Name : String
  deriving DecidableEq

/-- The `*pluginsdk.ResourceData` handed to the entry points: the retained id,
the `IsNewResource` flag and one slot per schema key.  `d.Get(key).(string)`
reads a slot (`getString`), `d.Set(key, v)` overwrites it; a nil pointer is
stored as `none`. -/
structure ResourceData where
  Id : String := ""
  IsNewResource : Bool := false
  name : Option String := none
  location : Option String := none
  resource_group_name : Option String := none
  pfx_blob : Option String := none
  password : Option String := none
  key_vault_secret_id : Option String := none
  app_service_plan_id : Option String := none
  hosting_environment_profile_id : Option String := none
  friendly_name : Option String := none
  subject_name : Option String := none
  host_names : Option (List String) := none
  issuer : Option String := none
  issue_date : Option String := none
  expiration_date : Option String := none
  thumbprint : Option String := none
  tags : List (String × String) := []
  deriving DecidableEq

/-- The value of `d.Get(key).(string)`: the zero value when the key is unset. -/
def getString (v : Option String) : String := v.getD ""

/-- The helpers of this provider that the resource calls and whose code lives
in other packages.  They are parameters of the embedding. -/
structure Env where
  /-- The helper `azure.NormalizeLocation`. -/
  NormalizeLocation : String → String
  /-- The identity codec `parse.CertificateID`. -/
  CertificateID : String → Except Err CertificateId
  /-- The secret reference codec `keyVaultParse.ParseNestedItemID`. -/
  ParseNestedItemID : String → Except Err NestedItemId
  /-- The classifier `utils.ResponseWasNotFound`. -/
  ResponseWasNotFound : Response → Bool
  /-- The helper `tags.Expand`. -/
  Expand : List (String × String) → List (String × Option String)
  /-- The helper `tags.FlattenAndSet(d, tagMap)`: the error it returns and the
  value it stores under the key `tags`. -/
  FlattenAndSet : List (String × Option String) → Option Err × List (String × String)
  /-- The call `t.Format(time.RFC3339)`. -/
  FormatRFC3339 : DateTime → String

/-- The remote services reached through the clients, as transition functions
on an arbitrary state `σ`.  Each call returns both Go results. -/
structure Remote (σ : Type) where
  /-- `client.Get(ctx, resourceGroup, name)`. -/
  Get : σ → String → String → (Certificate × Option Err) × σ
  /-- `client.CreateOrUpdate(ctx, resourceGroup, name, certificate)`. -/
  CreateOrUpdate : σ → String → String → Certificate → (Certificate × Option Err) × σ
  /-- `client.Delete(ctx, resourceGroup, name)`. -/
  Delete : σ → String → String → (Response × Option Err) × σ
  /-- `keyVaultsClient.KeyVaultIDFromBaseUrl(ctx, resourcesClient, keyVaultBaseUrl)`. -/
  KeyVaultIDFromBaseUrl : σ → String → (Option String × Option Err) × σ

/-- One remote call, with its arguments and what it returned. -/
inductive Call where
  | Get (resourceGroup name : String) (result : Certificate) (err : Option Err)
  | CreateOrUpdate (resourceGroup name : String) (certificate : Certificate)
      (result : Certificate) (err : Option Err)
  | Delete (resourceGroup name : String) (result : Response) (err : Option Err)
  | KeyVaultIDFromBaseUrl (keyVaultBaseUrl : String) (id : Option String) (err : Option Err)
  deriving DecidableEq

/-- Whether a logged call is a `CreateOrUpdate`. -/
def Call.isCreateOrUpdate : Call → Bool
  | Call.CreateOrUpdate _ _ _ _ _ => true
  | _ => false

/-- State of the remote services and the calls issued so far, oldest first. -/
structure World (σ : Type) where
  remote : σ
  calls : List Call

/-- Issue `client.Get` and log it. -/
def clientGet {σ : Type} (R : Remote σ) (w : World σ) (resourceGroup name : String) :
    (Certificate × Option Err) × World σ :=
  let r := R.Get w.remote resourceGroup name
  (r.1, { remote := r.2, calls := w.calls ++ [Call.Get resourceGroup name r.1.1 r.1.2] })

/-- Issue `client.CreateOrUpdate` and log it. -/
def clientCreateOrUpdate {σ : Type} (R : Remote σ) (w : World σ) (resourceGroup name : String)
    (certificate : Certificate) : (Certificate × Option Err) × World σ :=
  let r := R.CreateOrUpdate w.remote resourceGroup name certificate
  (r.1, { remote := r.2,
          calls := w.calls ++ [Call.CreateOrUpdate resourceGroup name certificate r.1.1 r.1.2] })

/-- Issue `client.Delete` and log it. -/
def clientDelete {σ : Type} (R : Remote σ) (w : World σ) (resourceGroup name : String) :
    (Response × Option Err) × World σ :=
  let r := R.Delete w.remote resourceGroup name
  (r.1, { remote := r.2, calls := w.calls ++ [Call.Delete resourceGroup name r.1.1 r.1.2] })

/-- Issue `keyVaultsClient.KeyVaultIDFromBaseUrl` and log it. -/
def keyVaultIDFromBaseUrl {σ : Type} (R : Remote σ) (w : World σ) (keyVaultBaseUrl : String) :
    (Option String × Option Err) × World σ :=
  let r := R.KeyVaultIDFromBaseUrl w.remote keyVaultBaseUrl
  (r.1, { remote := r.2,
          calls := w.calls ++ [Call.KeyVaultIDFromBaseUrl keyVaultBaseUrl r.1.1 r.1.2] })

/-! ## The entry points -/

/-- Lines 225-267.  Returns what the Go function returns, the resource data
after the call and the world after the call. -/
def resourceAppServiceCertificateRead {σ : Type} (env : Env) (R : Remote σ)
    (d : ResourceData) (w : World σ) : Ret × ResourceData × World σ :=
  match env.CertificateID d.Id with
  | Except.error err => (Ret.error err, d, w)
  | Except.ok id =>
    let r := clientGet R w id.ResourceGroup id.Name
    let resp := r.1.1
    match r.1.2 with
    | some err =>
      if env.ResponseWasNotFound resp.Response then
        -- d.SetId("")
        (Ret.nil, { d with Id := "" }, r.2)
      else
        (Ret.error (Err.makingReadRequest id.Name id.ResourceGroup err), d, r.2)
    | none =>
      let d1 := { d with name := resp.Name }
      let d2 := { d1 with resource_group_name := some id.ResourceGroup }
      let d3 :=
        match resp.Location with
        | some location => { d2 with location := some (env.NormalizeLocation location) }
        | none => d2
      match resp.CertificateProperties with
      | some props =>
        let d4 := { d3 with friendly_name := props.FriendlyName,
                            subject_name := props.SubjectName,
                            host_names := props.HostNames,
                            issuer := props.Issuer }
        -- props.IssueDate.Format(time.RFC3339) dereferences props.IssueDate
        match props.IssueDate with
        | none => (Ret.nilPointerDereference, d4, r.2)
        | some issueDate =>
          let d5 := { d4 with issue_date := some (env.FormatRFC3339 issueDate) }
          -- props.ExpirationDate.Format(time.RFC3339) dereferences props.ExpirationDate
          match props.ExpirationDate with
          | none => (Ret.nilPointerDereference, d5, r.2)
          | some expirationDate =>
            let d6 := { d5 with expiration_date := some (env.FormatRFC3339 expirationDate),
                                thumbprint := props.Thumbprint }
            let d7 :=
              match props.HostingEnvironmentProfile with
              | some hep => { d6 with hosting_environment_profile_id := hep.ID }
              | none => d6
            let fs := env.FlattenAndSet resp.Tags
            ((match fs.1 with | some err => Ret.error err | none => Ret.nil),
              { d7 with tags := fs.2 }, r.2)
      | none =>
        let fs := env.FlattenAndSet resp.Tags
        ((match fs.1 with | some err => Ret.error err | none => Ret.nil),
          { d3 with tags := fs.2 }, r.2)

/-- Lines 155-166, the block `if d.IsNewResource() { ... }` of
`resourceAppServiceCertificateCreateUpdate`: the error returned from inside the
block, if any, and the world after it. -/
def existenceGuard {σ : Type} (env : Env) (R : Remote σ) (d : ResourceData) (w : World σ) :
    Option Err × World σ :=
  let name := getString d.name
  let resourceGroup := getString d.resource_group_name
  if d.IsNewResource then
    let r := clientGet R w resourceGroup name
    let existing := r.1.1
    match r.1.2, env.ResponseWasNotFound existing.Response with
    | some err, false => (some (Err.checkingPresence name resourceGroup err), r.2)
    | _, _ =>
      match existing.ID with
      | some id =>
        if id ≠ "" then
          (some (Err.importAsExists "azurerm_app_service_certificate" id), r.2)
        else (none, r.2)
      | none => (none, r.2)
  else (none, w)

/-- Lines 168-206 of `resourceAppServiceCertificateCreateUpdate`: the
certificate properties sent to the remote, or the error returned while they are
being resolved, and the world after the resolution. -/
def resolvePayload {σ : Type} (env : Env) (R : Remote σ) (d : ResourceData) (w : World σ) :
    Except Err CertificateProperties × World σ :=
  let pfxBlob := getString d.pfx_blob
  let password := getString d.password
  let keyVaultSecretId := getString d.key_vault_secret_id
  let appServicePlanId := getString d.app_service_plan_id
  -- lines 168-178
  let props0 : CertificateProperties := { Password := some password }
  let props1 :=
    if appServicePlanId ≠ "" then { props0 with ServerFarmID := some appServicePlanId }
    else props0
  -- lines 180-186
  let inline : Except Err CertificateProperties :=
    if pfxBlob ≠ "" then
      match Base64.DecodeString pfxBlob with
      | none => Except.error Err.couldNotDecodePfxBlob
      | some decodedPfxBlob => Except.ok { props1 with PfxBlob := some decodedPfxBlob }
    else Except.ok props1
  match inline with
  | Except.error err => (Except.error err, w)
  | Except.ok props2 =>
    -- lines 188-206
    if keyVaultSecretId ≠ "" then
      match env.ParseNestedItemID keyVaultSecretId with
      | Except.error err => (Except.error err, w)
      | Except.ok parsedSecretId =>
        let keyVaultBaseUrl := parsedSecretId.KeyVaultBaseUrl
        let r := keyVaultIDFromBaseUrl R w keyVaultBaseUrl
        match r.1.2 with
        | some err => (Except.error (Err.retrievingKeyVaultID keyVaultBaseUrl err), r.2)
        | none =>
          match r.1.1 with
          | none => (Except.error (Err.unableToDetermineKeyVaultID keyVaultBaseUrl), r.2)
          | some keyVaultId =>
            (Except.ok { props2 with KeyVaultID := some keyVaultId,
                                     KeyVaultSecretName := some parsedSecretId.Name }, r.2)
    else (Except.ok props2, w)

/-- Lines 168-174 of `resourceAppServiceCertificateCreateUpdate`: the
`web.Certificate` literal around the certificate properties. -/
def newCertificate (env : Env) (d : ResourceData) (props : CertificateProperties) :
    Certificate :=
  let location := env.NormalizeLocation (getString d.location)
  let t := d.tags
  { CertificateProperties := some props, Location := some location, Tags := env.Expand t }

/-- Lines 208-222 of `resourceAppServiceCertificateCreateUpdate`: the
certificate is written, the object is fetched again, its id is retained and
Read is delegated to. -/
def createAndAdopt {σ : Type} (env : Env) (R : Remote σ) (d : ResourceData) (w : World σ)
    (props : CertificateProperties) : Ret × ResourceData × World σ :=
  let name := getString d.name
  let resourceGroup := getString d.resource_group_name
  let certificate := newCertificate env d props
  -- lines 208-210
  let c := clientCreateOrUpdate R w resourceGroup name certificate
  match c.1.2 with
  | some err => (Ret.error (Err.creatingUpdating name resourceGroup err), d, c.2)
  | none =>
    -- lines 212-218
    let g := clientGet R c.2 resourceGroup name
    let read := g.1.1
    match g.1.2 with
    | some err => (Ret.error (Err.retrieving name resourceGroup err), d, g.2)
    | none =>
      match read.ID with
      | none => (Ret.error (Err.cannotReadID name resourceGroup), d, g.2)
      | some id =>
        -- lines 220-222: d.SetId(*read.ID), then the delegated Read
        resourceAppServiceCertificateRead env R { d with Id := id } g.2

/-- Lines 133-223.  The block of lines 155-166 is `existenceGuard`, the one of
lines 168-206 is `resolvePayload` (with `newCertificate`), the rest is
`createAndAdopt`. -/
def resourceAppServiceCertificateCreateUpdate {σ : Type} (env : Env) (R : Remote σ)
    (d : ResourceData) (w : World σ) : Ret × ResourceData × World σ :=
  let pfxBlob := getString d.pfx_blob
  let keyVaultSecretId := getString d.key_vault_secret_id
  if pfxBlob = "" ∧ keyVaultSecretId = "" then
    (Ret.error Err.eitherMustBeSet, d, w)
  else
    -- lines 155-166
    match existenceGuard env R d w with
    | (some err, w1) => (Ret.error err, d, w1)
    | (none, w1) =>
      -- lines 168-206
      match resolvePayload env R d w1 with
      | (Except.error err, w2) => (Ret.error err, d, w2)
      | (Except.ok props, w2) => createAndAdopt env R d w2 props

/-- Lines 269-289. -/
def resourceAppServiceCertificateDelete {σ : Type} (env : Env) (R : Remote σ)
    (d : ResourceData) (w : World σ) : Ret × ResourceData × World σ :=
  match env.CertificateID d.Id with
  | Except.error err => (Ret.error err, d, w)
  | Except.ok id =>
    let r := clientDelete R w id.ResourceGroup id.Name
    let resp := r.1.1
    match r.1.2 with
    | some err =>
      if ¬ env.ResponseWasNotFound resp then
        (Ret.error (Err.deleting id.Name id.ResourceGroup err), d, r.2)
      else (Ret.nil, d, r.2)
    | none => (Ret.nil, d, r.2)

/-- Lines 151-218 of `resourceAppServiceCertificateCreateUpdate`, followed up to
the call `d.SetId(*read.ID)` of line 220: the id passed to `d.SetId` when the
invocation gets there, `none` when it returns before that line. -/
def adoptedId {σ : Type} (env : Env) (R : Remote σ) (d : ResourceData) (w : World σ) :
    Option String :=
  let name := getString d.name
  let resourceGroup := getString d.resource_group_name
  let pfxBlob := getString d.pfx_blob
  let keyVaultSecretId := getString d.key_vault_secret_id
  if pfxBlob = "" ∧ keyVaultSecretId = "" then none
  else
    match existenceGuard env R d w with
    | (some _, _) => none
    | (none, w1) =>
      match resolvePayload env R d w1 with
      | (Except.error _, _) => none
      | (Except.ok props, w2) =>
        let c := clientCreateOrUpdate R w2 resourceGroup name (newCertificate env d props)
        match c.1.2 with
        | some _ => none
        | none =>
          let g := clientGet R c.2 resourceGroup name
          match g.1.2 with
          | some _ => none
          | none => g.1.1.ID

/-- The calls logged between the world `w` and the later world `w2`. -/
def callsSince {σ : Type} (w w2 : World σ) : List Call := w2.calls.drop w.calls.length

/-! ## A concrete environment and scripted remotes

Used to run the entry points on concrete inputs. -/

/-- Split a string at every `/`. -/
def splitOnSlash : List Char → List (List Char)
  | [] => [[]]
  | c :: cs =>
    if c = '/' then [] :: splitOnSlash cs
    else
      match splitOnSlash cs with
      | [] => [[c]]
      | seg :: segs => (c :: seg) :: segs

/-- Two decimal digits. -/
def twoDigits (n : Nat) : List Char := [Char.ofNat (48 + n / 10 % 10), Char.ofNat (48 + n % 10)]

/-- An environment in which the helpers behave like the ones of the provider
on the inputs used below: locations are lower-cased with blanks removed, ids
have the shape `/subscriptions/S/resourceGroups/G/providers/Microsoft.Web/certificates/N`,
secret references the shape `https://HOST/secrets/NAME/VERSION`, not-found is
status 404, tags with a nil value are dropped when flattening, and times (UTC,
seconds since midnight) are printed as `1970-01-01THH:MM:SSZ`. -/
def sampleEnv : Env where
  NormalizeLocation := fun s => String.mk ((s.data.filter (fun c => c ≠ ' ')).map Char.toLower)
  CertificateID := fun s =>
    match splitOnSlash s.data with
    | [[], k1, _, k2, g, k3, k4, k5, n] =>
      if String.mk k1 = "subscriptions" ∧ String.mk k2 = "resourceGroups" ∧
          String.mk k3 = "providers" ∧ String.mk k4 = "Microsoft.Web" ∧
          String.mk k5 = "certificates" ∧ g ≠ [] ∧ n ≠ [] then
        Except.ok { ResourceGroup := String.mk g, Name := String.mk n }
      else Except.error (Err.other "parsing certificate id")
    | _ => Except.error (Err.other "parsing certificate id")
  ParseNestedItemID := fun s =>
    match splitOnSlash s.data with
    | [scheme, [], host, kind, n, _] =>
      if String.mk scheme = "https:" ∧ String.mk kind = "secrets" ∧ host ≠ [] ∧ n ≠ [] then
        Except.ok { KeyVaultBaseUrl := String.mk (scheme ++ ['/', '/'] ++ host ++ ['/']),
                    Name := String.mk n }
      else Except.error (Err.other "parsing nested item id")
    | _ => Except.error (Err.other "parsing nested item id")
  ResponseWasNotFound := fun r => r.StatusCode = some 404
  Expand := fun t => t.map (fun kv => (kv.1, some kv.2))
  FlattenAndSet := fun t =>
    (none, t.filterMap (fun kv => match kv.2 with | some v => some (kv.1, v) | none => none))
  FormatRFC3339 := fun t =>
    String.mk ("1970-01-01T".data ++ twoDigits (t.unixSeconds.toNat / 3600 % 24) ++ [':'] ++
      twoDigits (t.unixSeconds.toNat / 60 % 60) ++ [':'] ++
      twoDigits (t.unixSeconds.toNat % 60) ++ ['Z'])

/-- A remote that answers the successive `Get` calls from a script (not-found
once the script is exhausted), accepts every `CreateOrUpdate` and `Delete`
and resolves every key vault URL to one fixed vault id. -/
def scriptedRemote : Remote (List (Certificate × Option Err)) where
  Get := fun s _ _ =>
    match s with
    | r :: rest => (r, rest)
    | [] => (({ Response := { StatusCode := some 404 } }, some (Err.other "not found")), [])
  CreateOrUpdate := fun s _ _ certificate => ((certificate, none), s)
  Delete := fun s _ _ => (({ StatusCode := some 200 }, none), s)
  KeyVaultIDFromBaseUrl := fun s _ =>
    ((some "/subscriptions/s1/resourceGroups/rg1/providers/Microsoft.KeyVault/vaults/vault1",
      none), s)

/-- The id of the certificate `cert1` in the resource group `rg1`. -/
def cert1Id : String :=
  "/subscriptions/s1/resourceGroups/rg1/providers/Microsoft.Web/certificates/cert1"

/-- A successful `Get` answer: the stored object `cert1`, without properties. -/
def cert1Found : Certificate × Option Err :=
  ({ Response := { StatusCode := some 200 }, ID := some cert1Id, Name := some "cert1",
     Location := some "West US" }, none)

/-- A not-found `Get` answer. -/
def notFoundAnswer : Certificate × Option Err :=
  ({ Response := { StatusCode := some 404 } }, some (Err.other "not found"))

/-- A failed `Get` answer that is not a not-found. -/
def serverErrorAnswer : Certificate × Option Err :=
  ({ Response := { StatusCode := some 500 } }, some (Err.other "internal server error"))

/-- A successful `Get` answer whose certificate properties are present while
the issue date (a nil `*date.Time`) is absent. -/
def cert1WithoutIssueDate : Certificate × Option Err :=
  ({ Response := { StatusCode := some 200 }, ID := some cert1Id, Name := some "cert1",
     Location := some "West US",
     CertificateProperties := some
       { Thumbprint := some "AB12", ExpirationDate := some ⟨3600, 0⟩ } }, none)

/-- A successful `Get` answer whose certificate properties are present while
the expiration date is absent. -/
def cert1WithoutExpirationDate : Certificate × Option Err :=
  ({ Response := { StatusCode := some 200 }, ID := some cert1Id, Name := some "cert1",
     Location := some "West US",
     CertificateProperties := some
       { Thumbprint := some "AB12", IssueDate := some ⟨3600, 0⟩ } }, none)

/-- The configuration of the scenario of the specification: an inline PFX
blob `base64("hello")` with password `p`. -/
def inlineConfig : ResourceData :=
  { IsNewResource := true, name := some "cert1", resource_group_name := some "rg1",
    location := some "westus", pfx_blob := some "aGVsbG8=", password := some "p" }

/-- A configuration without any certificate source. -/
def neitherConfig : ResourceData :=
  { IsNewResource := true, name := some "cert1", resource_group_name := some "rg1",
    location := some "westus" }

/-! ## Theorems -/

namespace Base64

/-! ### Round trip of the standard encoding -/

set_option maxRecDepth 8000 in
theorem decodeMap_encodeChar (v : Nat) (h : v < 64) : decodeMap (encodeChar v) = v := by
  have key : ∀ w : Fin 64, decodeMap (encodeChar w.val) = w.val := by decide
  exact key ⟨v, h⟩

theorem or_pack (i a b : Nat) (hb : b < 2 ^ i) : a <<< i ||| b = a * 2 ^ i + b := by
  rw [Nat.shiftLeft_eq, Nat.mul_comm a, ← Nat.mul_add_lt_is_or hb]

theorem pack3 (a b c : Nat) (hb : b < 256) (hc : c < 256) :
    a <<< 16 ||| b <<< 8 ||| c = a * 65536 + b * 256 + c := by
  have h1 : b <<< 8 = b * 256 := by rw [Nat.shiftLeft_eq]
  have h2 : a <<< 16 ||| b <<< 8 = a * 65536 + b * 256 := by
    rw [h1, or_pack 16 a (b * 256) (by omega)]; norm_num
  have h3 : a * 65536 + b * 256 = (a * 256 + b) <<< 8 := by rw [Nat.shiftLeft_eq]; omega
  rw [h2, h3, or_pack 8 _ c (by omega)]; omega

theorem pack4 (a b c d : Nat) (hb : b < 64) (hc : c < 64) (hd : d < 64) :
    a <<< 18 ||| b <<< 12 ||| c <<< 6 ||| d = a * 262144 + b * 4096 + c * 64 + d := by
  have h1 : b <<< 12 = b * 4096 := by rw [Nat.shiftLeft_eq]
  have h1' : c <<< 6 = c * 64 := by rw [Nat.shiftLeft_eq]
  have h2 : a <<< 18 ||| b <<< 12 = a * 262144 + b * 4096 := by
    rw [h1, or_pack 18 a (b * 4096) (by omega)]; norm_num
  have h3 : a * 262144 + b * 4096 = (a * 64 + b) <<< 12 := by rw [Nat.shiftLeft_eq]; omega
  have h4 : (a * 64 + b) <<< 12 ||| c <<< 6 = (a * 64 + b) * 4096 + c * 64 := by
    rw [h1', or_pack 12 _ (c * 64) (by omega)]; norm_num
  have h5 : (a * 64 + b) * 4096 + c * 64 = ((a * 64 + b) * 64 + c) <<< 6 := by
    rw [Nat.shiftLeft_eq]; omega
  rw [h2, h3, h4, h5, or_pack 6 _ d (by omega)]; omega

theorem sextet0 (x : Nat) : x &&& 0x3F = x % 64 :=
  Nat.and_pow_two_sub_one_eq_mod _ 6

/-- The four 6 bit values cut from three bytes, as arithmetic. -/
theorem encode_three (b0 b1 b2 : Nat) (rest : List Nat) (h0 : b0 < 256) (h1 : b1 < 256)
    (h2 : b2 < 256) :
    encode (b0 :: b1 :: b2 :: rest) =
      encodeChar (b0 / 4) :: encodeChar (b0 % 4 * 16 + b1 / 16) ::
        encodeChar (b1 % 16 * 4 + b2 / 64) :: encodeChar (b2 % 64) :: encode rest := by
  simp only [encode, sextet0, Nat.shiftRight_eq_div_pow, pack3 b0 b1 b2 h1 h2]
  have e1 : (b0 * 65536 + b1 * 256 + b2) / 2 ^ 18 % 64 = b0 / 4 := by norm_num; omega
  have e2 : (b0 * 65536 + b1 * 256 + b2) / 2 ^ 12 % 64 = b0 % 4 * 16 + b1 / 16 := by
    norm_num; omega
  have e3 : (b0 * 65536 + b1 * 256 + b2) / 2 ^ 6 % 64 = b1 % 16 * 4 + b2 / 64 := by
    norm_num; omega
  have e4 : (b0 * 65536 + b1 * 256 + b2) % 64 = b2 % 64 := by omega
  rw [e1, e2, e3, e4]

theorem encode_two (b0 b1 : Nat) (h0 : b0 < 256) (h1 : b1 < 256) :
    encode [b0, b1] =
      [encodeChar (b0 / 4), encodeChar (b0 % 4 * 16 + b1 / 16), encodeChar (b1 % 16 * 4),
        padChar] := by
  have hp : b0 <<< 16 ||| b1 <<< 8 = b0 * 65536 + b1 * 256 := by
    have := pack3 b0 b1 0 h1 (by omega)
    simpa using this
  simp only [encode, sextet0, Nat.shiftRight_eq_div_pow, hp]
  have e1 : (b0 * 65536 + b1 * 256) / 2 ^ 18 % 64 = b0 / 4 := by norm_num; omega
  have e2 : (b0 * 65536 + b1 * 256) / 2 ^ 12 % 64 = b0 % 4 * 16 + b1 / 16 := by
    norm_num; omega
  have e3 : (b0 * 65536 + b1 * 256) / 2 ^ 6 % 64 = b1 % 16 * 4 := by norm_num; omega
  rw [e1, e2, e3]

theorem encode_one (b0 : Nat) (h0 : b0 < 256) :
    encode [b0] = [encodeChar (b0 / 4), encodeChar (b0 % 4 * 16), padChar, padChar] := by
  have hp : b0 <<< 16 = b0 * 65536 := by rw [Nat.shiftLeft_eq]
  simp only [encode, sextet0, Nat.shiftRight_eq_div_pow, hp]
  have e1 : b0 * 65536 / 2 ^ 18 % 64 = b0 / 4 := by norm_num; omega
  have e2 : b0 * 65536 / 2 ^ 12 % 64 = b0 % 4 * 16 := by norm_num; omega
  rw [e1, e2]

/-- A character of the alphabet is appended to the quantum being read. -/
theorem decodeLoop_alphabet (v : Nat) (hv : v < 64) (cs : List Char) (dbuf dst : List Nat) :
    decodeLoop (encodeChar v :: cs) dbuf dst =
      if dbuf.length = 3 then decodeLoop cs [] (dst ++ quantumBytes (dbuf ++ [v]) 4)
      else decodeLoop cs (dbuf ++ [v]) dst := by
  have hne : v ≠ 255 := by omega
  simp [decodeLoop, decodeMap_encodeChar v hv, hne]

theorem quantumBytes_four (s0 s1 s2 s3 : Nat) (h1 : s1 < 64) (h2 : s2 < 64) (h3 : s3 < 64) :
    quantumBytes [s0, s1, s2, s3] 4 =
      [(s0 * 262144 + s1 * 4096 + s2 * 64 + s3) / 65536 % 256,
       (s0 * 262144 + s1 * 4096 + s2 * 64 + s3) / 256 % 256,
       (s0 * 262144 + s1 * 4096 + s2 * 64 + s3) % 256] := by
  simp [quantumBytes, pack4 s0 s1 s2 s3 h1 h2 h3, Nat.shiftRight_eq_div_pow]

theorem quantumBytes_three (s0 s1 s2 : Nat) (h1 : s1 < 64) (h2 : s2 < 64) :
    quantumBytes [s0, s1, s2] 3 =
      [(s0 * 262144 + s1 * 4096 + s2 * 64) / 65536 % 256,
       (s0 * 262144 + s1 * 4096 + s2 * 64) / 256 % 256] := by
  have h := pack4 s0 s1 s2 0 h1 h2 (by omega)
  simp only [quantumBytes, List.getD_cons_zero, List.getD_cons_succ, List.getD_nil]
  rw [h]
  simp [Nat.shiftRight_eq_div_pow]

theorem quantumBytes_two (s0 s1 : Nat) (h1 : s1 < 64) :
    quantumBytes [s0, s1] 2 = [(s0 * 262144 + s1 * 4096) / 65536 % 256] := by
  have h := pack4 s0 s1 0 0 h1 (by omega) (by omega)
  simp only [quantumBytes, List.getD_cons_zero, List.getD_cons_succ, List.getD_nil]
  rw [h]
  simp [Nat.shiftRight_eq_div_pow]

/-- Four characters of the alphabet make one full quantum. -/
theorem decodeLoop_quantum (s0 s1 s2 s3 : Nat) (h0 : s0 < 64) (h1 : s1 < 64) (h2 : s2 < 64)
    (h3 : s3 < 64) (cs : List Char) (dst : List Nat) :
    decodeLoop (encodeChar s0 :: encodeChar s1 :: encodeChar s2 :: encodeChar s3 :: cs) [] dst =
      decodeLoop cs [] (dst ++ quantumBytes [s0, s1, s2, s3] 4) := by
  simp [decodeLoop_alphabet _ h0, decodeLoop_alphabet _ h1, decodeLoop_alphabet _ h2,
    decodeLoop_alphabet _ h3]

theorem decodeMap_padChar : decodeMap '=' = 255 := by decide

/-- Two characters and `==` end the input with one byte. -/
theorem decodeLoop_pad2 (s0 s1 : Nat) (h0 : s0 < 64) (h1 : s1 < 64) (dst : List Nat) :
    decodeLoop [encodeChar s0, encodeChar s1, padChar, padChar] [] dst =
      some (dst ++ quantumBytes [s0, s1] 2) := by
  simp [decodeLoop_alphabet _ h0, decodeLoop_alphabet _ h1]
  simp [decodeLoop, decodeMap_padChar, skipNewlines, padChar]

/-- Three characters and `=` end the input with two bytes. -/
theorem decodeLoop_pad1 (s0 s1 s2 : Nat) (h0 : s0 < 64) (h1 : s1 < 64) (h2 : s2 < 64)
    (dst : List Nat) :
    decodeLoop [encodeChar s0, encodeChar s1, encodeChar s2, padChar] [] dst =
      some (dst ++ quantumBytes [s0, s1, s2] 3) := by
  simp [decodeLoop_alphabet _ h0, decodeLoop_alphabet _ h1, decodeLoop_alphabet _ h2]
  simp [decodeLoop, decodeMap_padChar, skipNewlines, padChar]

/-- Decoding undoes encoding, from any point between two quanta. -/
theorem decodeLoop_encode (b dst : List Nat) (hb : ∀ x ∈ b, x < 256) :
    decodeLoop (encode b) [] dst = some (dst ++ b) := by
  induction b using encode.induct generalizing dst with
  | case1 b0 b1 b2 rest ih =>
    have h0 : b0 < 256 := hb b0 (by simp)
    have h1 : b1 < 256 := hb b1 (by simp)
    have h2 : b2 < 256 := hb b2 (by simp)
    have hrest : ∀ x ∈ rest, x < 256 := fun x hx => hb x (by simp [hx])
    rw [encode_three b0 b1 b2 rest h0 h1 h2,
      decodeLoop_quantum _ _ _ _ (by omega) (by omega) (by omega) (by omega),
      quantumBytes_four _ _ _ _ (by omega) (by omega) (by omega), ih _ hrest]
    have e1 : (b0 / 4 * 262144 + (b0 % 4 * 16 + b1 / 16) * 4096 + (b1 % 16 * 4 + b2 / 64) * 64
        + b2 % 64) = b0 * 65536 + b1 * 256 + b2 := by omega
    have e2 : (b0 * 65536 + b1 * 256 + b2) / 65536 % 256 = b0 := by omega
    have e3 : (b0 * 65536 + b1 * 256 + b2) / 256 % 256 = b1 := by omega
    have e4 : (b0 * 65536 + b1 * 256 + b2) % 256 = b2 := by omega
    rw [e1, e2, e3, e4]
    simp
  | case2 b0 b1 =>
    have h0 : b0 < 256 := hb b0 (by simp)
    have h1 : b1 < 256 := hb b1 (by simp)
    rw [encode_two b0 b1 h0 h1,
      decodeLoop_pad1 _ _ _ (by omega) (by omega) (by omega),
      quantumBytes_three _ _ _ (by omega) (by omega)]
    have e1 : (b0 / 4 * 262144 + (b0 % 4 * 16 + b1 / 16) * 4096 + (b1 % 16 * 4) * 64)
        = b0 * 65536 + b1 * 256 := by omega
    have e2 : (b0 * 65536 + b1 * 256) / 65536 % 256 = b0 := by omega
    have e3 : (b0 * 65536 + b1 * 256) / 256 % 256 = b1 := by omega
    rw [e1, e2, e3]
  | case3 b0 =>
    have h0 : b0 < 256 := hb b0 (by simp)
    rw [encode_one b0 h0, decodeLoop_pad2 _ _ (by omega) (by omega),
      quantumBytes_two _ _ (by omega)]
    have e1 : (b0 / 4 * 262144 + (b0 % 4 * 16) * 4096) = b0 * 65536 := by omega
    have e2 : (b0 * 65536) / 65536 % 256 = b0 := by omega
    rw [e1, e2]
  | case4 => simp [encode, decodeLoop]

/-- Round trip: `DecodeString (EncodeToString b) = b` for every byte string `b`. -/
theorem DecodeString_EncodeToString (b : List Nat) (hb : ∀ x ∈ b, x < 256) :
    DecodeString (EncodeToString b) = some b := by
  simpa [DecodeString, EncodeToString] using decodeLoop_encode b [] hb

/-- The encoding of a byte string is empty only for the empty byte string. -/
theorem EncodeToString_eq_empty (b : List Nat) : EncodeToString b = "" ↔ b = [] := by
  constructor
  · intro h
    have h2 : encode b = [] := by
      have := congrArg String.data h
      simpa [EncodeToString] using this
    match b, h2 with
    | [], _ => rfl
    | [_], h2 => simp [encode] at h2
    | [_, _], h2 => simp [encode] at h2
    | _ :: _ :: _ :: _, h2 => simp [encode] at h2
  · rintro rfl
    rfl

end Base64

/-! ### Frame lemmas -/

/-- Read issues at most one call, a `Get`, after the calls already logged. -/
theorem read_calls {σ : Type} (env : Env) (R : Remote σ) (d : ResourceData) (w : World σ) :
    (resourceAppServiceCertificateRead env R d w).2.2.calls = w.calls ∨
    ∃ resourceGroup name result err,
      (resourceAppServiceCertificateRead env R d w).2.2.calls =
        w.calls ++ [Call.Get resourceGroup name result err] := by
  unfold resourceAppServiceCertificateRead
  split
  · exact Or.inl rfl
  · rename_i id _
    refine Or.inr ⟨id.ResourceGroup, id.Name, (R.Get w.remote id.ResourceGroup id.Name).1.1,
      (R.Get w.remote id.ResourceGroup id.Name).1.2, ?_⟩
    simp only [clientGet]
    repeat' split
    all_goals rfl

/-- The calls since `w` when the later log extends the log of `w` by `l`. -/
theorem callsSince_of_append {σ : Type} (w w2 : World σ) (l : List Call)
    (h : w2.calls = w.calls ++ l) : callsSince w w2 = l := by
  simp [callsSince, h]

/-- The existence guard does nothing on a resource that is not new. -/
theorem existenceGuard_not_new {σ : Type} (env : Env) (R : Remote σ) (d : ResourceData)
    (w : World σ) (h : d.IsNewResource = false) : existenceGuard env R d w = (none, w) := by
  simp [existenceGuard, h]

/-- On a new resource the existence guard issues exactly the lookup `Get`. -/
theorem existenceGuard_new {σ : Type} (env : Env) (R : Remote σ) (d : ResourceData)
    (w : World σ) (h : d.IsNewResource = true) :
    (existenceGuard env R d w).2 =
      (clientGet R w (getString d.resource_group_name) (getString d.name)).2 := by
  simp only [existenceGuard, h, if_true]
  repeat' split
  all_goals rfl

/-- The existence guard logs no call or one `Get`. -/
theorem existenceGuard_calls {σ : Type} (env : Env) (R : Remote σ) (d : ResourceData)
    (w : World σ) :
    ∃ gl, (existenceGuard env R d w).2.calls = w.calls ++ gl ∧
      gl.filter Call.isCreateOrUpdate = [] := by
  cases h : d.IsNewResource with
  | false => exact ⟨[], by simp [existenceGuard_not_new env R d w h], rfl⟩
  | true =>
    exact ⟨[Call.Get (getString d.resource_group_name) (getString d.name)
      (R.Get w.remote (getString d.resource_group_name) (getString d.name)).1.1
      (R.Get w.remote (getString d.resource_group_name) (getString d.name)).1.2],
      by rw [existenceGuard_new env R d w h]; rfl, rfl⟩

/-- The payload resolution logs no call or one key vault lookup. -/
theorem resolvePayload_calls {σ : Type} (env : Env) (R : Remote σ) (d : ResourceData)
    (w : World σ) :
    ∃ rl, (resolvePayload env R d w).2.calls = w.calls ++ rl ∧
      rl.filter Call.isCreateOrUpdate = [] := by
  unfold resolvePayload
  simp only []
  split
  · exact ⟨[], by simp, rfl⟩
  · split
    · split
      · exact ⟨[], by simp, rfl⟩
      · rename_i p _
        refine ⟨[Call.KeyVaultIDFromBaseUrl p.KeyVaultBaseUrl
          (R.KeyVaultIDFromBaseUrl w.remote p.KeyVaultBaseUrl).1.1
          (R.KeyVaultIDFromBaseUrl w.remote p.KeyVaultBaseUrl).1.2], ?_, rfl⟩
        simp only [keyVaultIDFromBaseUrl]
        split
        · rfl
        · split <;> rfl
    · exact ⟨[], by simp, rfl⟩

/-- With an inline blob that decodes and no vault reference, the payload
resolution issues no call and yields the decoded bytes with the password. -/
theorem resolvePayload_inline {σ : Type} (env : Env) (R : Remote σ) (d : ResourceData)
    (w : World σ) (bytes : List Nat) (hpfx : getString d.pfx_blob ≠ "")
    (hdec : Base64.DecodeString (getString d.pfx_blob) = some bytes)
    (hkv : getString d.key_vault_secret_id = "") :
    resolvePayload env R d w =
      (Except.ok
        { Password := some (getString d.password),
          ServerFarmID :=
            if getString d.app_service_plan_id ≠ "" then some (getString d.app_service_plan_id)
            else none,
          PfxBlob := some bytes }, w) := by
  unfold resolvePayload
  by_cases hasp : getString d.app_service_plan_id = "" <;> simp [hpfx, hdec, hkv, hasp]

/-- Read keeps the retained id whenever it returns an error. -/
theorem read_error_id {σ : Type} (env : Env) (R : Remote σ) (d : ResourceData) (w : World σ)
    (e : Err) (h : (resourceAppServiceCertificateRead env R d w).1 = Ret.error e) :
    (resourceAppServiceCertificateRead env R d w).2.1.Id = d.Id := by
  unfold resourceAppServiceCertificateRead at h ⊢
  simp only [] at h ⊢
  repeat' split
  all_goals first | rfl | simp_all

/-- Each way in which the payload resolution can fail makes `resolvePayload`
return an error. -/
theorem resolvePayload_fails {σ : Type} (env : Env) (R : Remote σ) (d : ResourceData)
    (w : World σ)
    (h : (getString d.pfx_blob ≠ "" ∧ Base64.DecodeString (getString d.pfx_blob) = none) ∨
      (getString d.key_vault_secret_id ≠ "" ∧
        ∃ e, env.ParseNestedItemID (getString d.key_vault_secret_id) = Except.error e) ∨
      (getString d.key_vault_secret_id ≠ "" ∧
        ∃ p, env.ParseNestedItemID (getString d.key_vault_secret_id) = Except.ok p ∧
          ((R.KeyVaultIDFromBaseUrl w.remote p.KeyVaultBaseUrl).1.2 ≠ none ∨
           (R.KeyVaultIDFromBaseUrl w.remote p.KeyVaultBaseUrl).1.1 = none))) :
    ∃ e, (resolvePayload env R d w).1 = Except.error e := by
  unfold resolvePayload
  simp only []
  split
  · exact ⟨_, rfl⟩
  · rename_i props2 hinline
    rcases h with ⟨h1, h2⟩ | ⟨h1, e, h2⟩ | ⟨h1, p, h2, h3⟩
    · simp [h1, h2] at hinline
    · simp only [h1, h2, ne_eq, not_false_eq_true, if_true]
      exact ⟨_, rfl⟩
    · simp only [h1, h2, ne_eq, not_false_eq_true, if_true, keyVaultIDFromBaseUrl]
      cases herr : (R.KeyVaultIDFromBaseUrl w.remote p.KeyVaultBaseUrl).1.2 with
      | some e => exact ⟨_, rfl⟩
      | none =>
        cases hid : (R.KeyVaultIDFromBaseUrl w.remote p.KeyVaultBaseUrl).1.1 with
        | none => exact ⟨_, rfl⟩
        | some id =>
          rcases h3 with h3 | h3
          · exact absurd herr h3
          · rw [hid] at h3
            cases h3

/-- Create/Update when no certificate source is set. -/
theorem createUpdate_neither_source_aux {σ : Type} (env : Env) (R : Remote σ)
    (d : ResourceData) (w : World σ) (hpfx : getString d.pfx_blob = "")
    (hkv : getString d.key_vault_secret_id = "") :
    resourceAppServiceCertificateCreateUpdate env R d w =
      (Ret.error Err.eitherMustBeSet, d, w) := by
  simp [resourceAppServiceCertificateCreateUpdate, hpfx, hkv]

/-- Create/Update when the existence guard returns an error. -/
theorem createUpdate_of_guard_error {σ : Type} (env : Env) (R : Remote σ) (d : ResourceData)
    (w : World σ) (e : Err)
    (hnot : ¬ (getString d.pfx_blob = "" ∧ getString d.key_vault_secret_id = ""))
    (hg : (existenceGuard env R d w).1 = some e) :
    resourceAppServiceCertificateCreateUpdate env R d w =
      (Ret.error e, d, (existenceGuard env R d w).2) := by
  unfold resourceAppServiceCertificateCreateUpdate
  simp only [hnot, if_false]
  rcases hg2 : existenceGuard env R d w with ⟨ge, w1⟩
  rw [hg2] at hg
  simp only at hg
  subst hg
  rfl

/-- Create/Update when the guard passes and the payload resolution fails. -/
theorem createUpdate_of_resolve_error {σ : Type} (env : Env) (R : Remote σ)
    (d : ResourceData) (w : World σ) (e : Err)
    (hnot : ¬ (getString d.pfx_blob = "" ∧ getString d.key_vault_secret_id = ""))
    (hg : (existenceGuard env R d w).1 = none)
    (hp : (resolvePayload env R d (existenceGuard env R d w).2).1 = Except.error e) :
    resourceAppServiceCertificateCreateUpdate env R d w =
      (Ret.error e, d, (resolvePayload env R d (existenceGuard env R d w).2).2) := by
  unfold resourceAppServiceCertificateCreateUpdate
  simp only [hnot, if_false]
  rcases hg2 : existenceGuard env R d w with ⟨ge, w1⟩
  rw [hg2] at hg hp
  simp only at hg hp
  subst hg
  simp only
  rcases hp2 : resolvePayload env R d w1 with ⟨r, w2⟩
  rw [hp2] at hp
  simp only at hp
  subst hp
  rfl

/-- Create/Update when the guard passes and the payload is resolved. -/
theorem createUpdate_of_resolved {σ : Type} (env : Env) (R : Remote σ)
    (d : ResourceData) (w : World σ) (props : CertificateProperties)
    (hnot : ¬ (getString d.pfx_blob = "" ∧ getString d.key_vault_secret_id = ""))
    (hg : (existenceGuard env R d w).1 = none)
    (hp : (resolvePayload env R d (existenceGuard env R d w).2).1 = Except.ok props) :
    resourceAppServiceCertificateCreateUpdate env R d w =
      createAndAdopt env R d (resolvePayload env R d (existenceGuard env R d w).2).2 props := by
  unfold resourceAppServiceCertificateCreateUpdate
  simp only [hnot, if_false]
  rcases hg2 : existenceGuard env R d w with ⟨ge, w1⟩
  rw [hg2] at hg hp
  simp only at hg hp
  subst hg
  simp only
  rcases hp2 : resolvePayload env R d w1 with ⟨r, w2⟩
  rw [hp2] at hp
  simp only at hp
  subst hp
  rfl

/-- Once the retained id parses, Read logs exactly its fetch. -/
theorem read_calls_of_parsed {σ : Type} (env : Env) (R : Remote σ) (d : ResourceData)
    (w : World σ) (pid : CertificateId) (hid : env.CertificateID d.Id = Except.ok pid) :
    (resourceAppServiceCertificateRead env R d w).2.2.calls =
      w.calls ++ [Call.Get pid.ResourceGroup pid.Name
        (R.Get w.remote pid.ResourceGroup pid.Name).1.1
        (R.Get w.remote pid.ResourceGroup pid.Name).1.2] := by
  unfold resourceAppServiceCertificateRead
  simp only [hid, clientGet]
  repeat' split
  all_goals rfl

/-- A successful Read parsed the retained id and fetched the object; either
the fetch succeeded and the retained id is kept, or the fetch failed with a
not-found response and the retained id is cleared. -/
theorem read_nil {σ : Type} (env : Env) (R : Remote σ) (d : ResourceData) (w : World σ)
    (h : (resourceAppServiceCertificateRead env R d w).1 = Ret.nil) :
    ∃ pid, env.CertificateID d.Id = Except.ok pid ∧
      (((R.Get w.remote pid.ResourceGroup pid.Name).1.2 = none ∧
          (resourceAppServiceCertificateRead env R d w).2.1.Id = d.Id) ∨
       ((R.Get w.remote pid.ResourceGroup pid.Name).1.2 ≠ none ∧
          env.ResponseWasNotFound (R.Get w.remote pid.ResourceGroup pid.Name).1.1.Response
            = true ∧
          (resourceAppServiceCertificateRead env R d w).2.1.Id = "")) := by
  cases hid : env.CertificateID d.Id with
  | error e => simp [resourceAppServiceCertificateRead, hid] at h
  | ok pid =>
    refine ⟨pid, rfl, ?_⟩
    unfold resourceAppServiceCertificateRead at h ⊢
    simp only [hid, clientGet] at h ⊢
    cases herr : (R.Get w.remote pid.ResourceGroup pid.Name).1.2 with
    | some e =>
      right
      simp only [herr] at h ⊢
      cases hnf : env.ResponseWasNotFound
          (R.Get w.remote pid.ResourceGroup pid.Name).1.1.Response with
      | false => simp [hnf] at h
      | true => simp
    | none =>
      left
      simp only [herr, true_and]
      repeat' split
      all_goals rfl

/-- What `clientGet` adds to the log. -/
theorem clientGet_calls {σ : Type} (R : Remote σ) (w : World σ) (resourceGroup name : String) :
    (clientGet R w resourceGroup name).2.calls =
      w.calls ++ [Call.Get resourceGroup name (clientGet R w resourceGroup name).1.1
        (clientGet R w resourceGroup name).1.2] := rfl

/-- What `clientCreateOrUpdate` adds to the log. -/
theorem clientCreateOrUpdate_calls {σ : Type} (R : Remote σ) (w : World σ)
    (resourceGroup name : String) (certificate : Certificate) :
    (clientCreateOrUpdate R w resourceGroup name certificate).2.calls =
      w.calls ++ [Call.CreateOrUpdate resourceGroup name certificate
        (clientCreateOrUpdate R w resourceGroup name certificate).1.1
        (clientCreateOrUpdate R w resourceGroup name certificate).1.2] := rfl

/-- The calls of `createAndAdopt`: the write, then only `Get` calls. -/
theorem createAndAdopt_calls {σ : Type} (env : Env) (R : Remote σ) (d : ResourceData)
    (w : World σ) (props : CertificateProperties) :
    ∃ result err rest,
      (createAndAdopt env R d w props).2.2.calls =
        w.calls ++ Call.CreateOrUpdate (getString d.resource_group_name) (getString d.name)
          (newCertificate env d props) result err :: rest ∧
      rest.filter Call.isCreateOrUpdate = [] := by
  have hcc := clientCreateOrUpdate_calls R w (getString d.resource_group_name)
    (getString d.name) (newCertificate env d props)
  unfold createAndAdopt
  simp only []
  rcases hc : clientCreateOrUpdate R w (getString d.resource_group_name) (getString d.name)
    (newCertificate env d props) with ⟨⟨cres, cerr⟩, wc⟩
  rw [hc] at hcc
  simp only at hcc ⊢
  have hgc := clientGet_calls R wc (getString d.resource_group_name) (getString d.name)
  rcases hg : clientGet R wc (getString d.resource_group_name) (getString d.name)
    with ⟨⟨read, gerr⟩, wg⟩
  rw [hg] at hgc
  simp only at hgc ⊢
  cases cerr with
  | some ce => exact ⟨cres, some ce, [], by simp [hcc], rfl⟩
  | none =>
    cases gerr with
    | some ge => exact ⟨cres, none, [Call.Get (getString d.resource_group_name) (getString d.name) read (some ge)], by simp [hgc, hcc], rfl⟩
    | none =>
      cases hid : read.ID with
      | none => exact ⟨cres, none, [Call.Get (getString d.resource_group_name) (getString d.name) read none], by simp [hgc, hcc], rfl⟩
      | some id =>
        simp only []
        rcases read_calls env R { d with Id := id } wg with hcalls | ⟨rg2, n2, r2, e2, hcalls⟩
        · exact ⟨cres, none, [Call.Get (getString d.resource_group_name) (getString d.name) read none], by simp [hcalls, hgc, hcc], rfl⟩
        · exact ⟨cres, none, [Call.Get (getString d.resource_group_name) (getString d.name) read none,
            Call.Get rg2 n2 r2 e2],
            by simp [hcalls, hgc, hcc], rfl⟩

/-- Create/Update either stops with an error before the write, leaving the
resource data untouched, or continues as `createAndAdopt` from a world whose log
extends the initial one. -/
theorem createUpdate_cases {σ : Type} (env : Env) (R : Remote σ) (d : ResourceData)
    (w : World σ) :
    (∃ e w2, resourceAppServiceCertificateCreateUpdate env R d w = (Ret.error e, d, w2)) ∨
    (∃ props w2 pre, w2.calls = w.calls ++ pre ∧
      resourceAppServiceCertificateCreateUpdate env R d w = createAndAdopt env R d w2 props) := by
  by_cases hnot : getString d.pfx_blob = "" ∧ getString d.key_vault_secret_id = ""
  · exact Or.inl ⟨_, _, createUpdate_neither_source_aux env R d w hnot.1 hnot.2⟩
  · obtain ⟨gl, hgl, _⟩ := existenceGuard_calls env R d w
    obtain ⟨rl, hrl, _⟩ := resolvePayload_calls env R d (existenceGuard env R d w).2
    cases hg : (existenceGuard env R d w).1 with
    | some ge => exact Or.inl ⟨_, _, createUpdate_of_guard_error env R d w ge hnot hg⟩
    | none =>
      cases hp : (resolvePayload env R d (existenceGuard env R d w).2).1 with
      | error pe => exact Or.inl ⟨_, _, createUpdate_of_resolve_error env R d w pe hnot hg hp⟩
      | ok props =>
        exact Or.inr ⟨props, _, gl ++ rl, by rw [hrl, hgl, List.append_assoc],
          createUpdate_of_resolved env R d w props hnot hg hp⟩

/-- When `createAndAdopt` returns nil, the write and the confirmation fetch
succeeded, the id of the fetched object parses, and the fetch of the delegated
Read either succeeded, the retained id being that id, or failed with a
not-found response, the retained id being empty. -/
theorem createAndAdopt_nil {σ : Type} (env : Env) (R : Remote σ) (d : ResourceData)
    (w : World σ) (props : CertificateProperties)
    (h : (createAndAdopt env R d w props).1 = Ret.nil) :
    ∃ certificate result read id pid fetched ferr,
      (createAndAdopt env R d w props).2.2.calls =
        w.calls ++ [Call.CreateOrUpdate (getString d.resource_group_name) (getString d.name)
            certificate result none,
          Call.Get (getString d.resource_group_name) (getString d.name) read none,
          Call.Get pid.ResourceGroup pid.Name fetched ferr] ∧
      read.ID = some id ∧ env.CertificateID id = Except.ok pid ∧
      ((ferr = none ∧ (createAndAdopt env R d w props).2.1.Id = id) ∨
       (ferr ≠ none ∧ env.ResponseWasNotFound fetched.Response = true ∧
          (createAndAdopt env R d w props).2.1.Id = "")) := by
  have hcc := clientCreateOrUpdate_calls R w (getString d.resource_group_name)
    (getString d.name) (newCertificate env d props)
  unfold createAndAdopt at h ⊢
  simp only [] at h ⊢
  rcases hc : clientCreateOrUpdate R w (getString d.resource_group_name) (getString d.name)
    (newCertificate env d props) with ⟨⟨cres, cerr⟩, wc⟩
  rw [hc] at hcc h
  simp only at hcc h ⊢
  have hgc := clientGet_calls R wc (getString d.resource_group_name) (getString d.name)
  rcases hg : clientGet R wc (getString d.resource_group_name) (getString d.name)
    with ⟨⟨read, gerr⟩, wg⟩
  rw [hg] at hgc h
  simp only at hgc h ⊢
  cases cerr with
  | some ce => simp at h
  | none =>
    cases gerr with
    | some ge => simp at h
    | none =>
      cases hid : read.ID with
      | none => simp [hid] at h
      | some id =>
        rw [hid] at h
        simp only [] at h ⊢
        obtain ⟨pid, hpid, hcase⟩ := read_nil env R { d with Id := id } wg h
        have hcalls := read_calls_of_parsed env R { d with Id := id } wg pid hpid
        refine ⟨newCertificate env d props, cres, read, id, pid,
          (R.Get wg.remote pid.ResourceGroup pid.Name).1.1,
          (R.Get wg.remote pid.ResourceGroup pid.Name).1.2, ?_, hid, hpid, ?_⟩
        · rw [hcalls, hgc, hcc]
          simp
        · rcases hcase with ⟨h1, h2⟩ | ⟨h1, h2, h3⟩
          · exact Or.inl ⟨h1, h2⟩
          · exact Or.inr ⟨h1, h2, h3⟩

/-- An invocation that returns before line 220 leaves the resource data
untouched. -/
theorem createUpdate_of_not_adopted {σ : Type} (env : Env) (R : Remote σ) (d : ResourceData)
    (w : World σ) (h : adoptedId env R d w = none) :
    (resourceAppServiceCertificateCreateUpdate env R d w).2.1 = d := by
  unfold adoptedId at h
  unfold resourceAppServiceCertificateCreateUpdate
  by_cases hnot : getString d.pfx_blob = "" ∧ getString d.key_vault_secret_id = ""
  · simp only [hnot, and_self, if_true]
  · simp only [hnot, if_false] at h ⊢
    rcases hg : existenceGuard env R d w with ⟨ge, w1⟩
    rw [hg] at h
    cases ge with
    | some ge => rfl
    | none =>
      simp only at h ⊢
      rcases hp : resolvePayload env R d w1 with ⟨pr, w2⟩
      rw [hp] at h
      cases pr with
      | error pe => rfl
      | ok props =>
        simp only at h ⊢
        unfold createAndAdopt
        simp only []
        rcases hc : clientCreateOrUpdate R w2 (getString d.resource_group_name)
          (getString d.name) (newCertificate env d props) with ⟨⟨cres, cerr⟩, wc⟩
        rw [hc] at h
        cases cerr with
        | some ce => rfl
        | none =>
          simp only at h ⊢
          rcases hgt : clientGet R wc (getString d.resource_group_name) (getString d.name)
            with ⟨⟨read, gerr⟩, wg⟩
          rw [hgt] at h
          cases gerr with
          | some ge => rfl
          | none =>
            simp only at h ⊢
            rw [h]

/-- An invocation that reaches line 220 with the id `id` continues as Read on
the resource data in which `id` is already retained; the write and the
confirmation fetch are the last two calls logged before that Read. -/
theorem createUpdate_of_adopted {σ : Type} (env : Env) (R : Remote σ) (d : ResourceData)
    (w : World σ) (id : String) (h : adoptedId env R d w = some id) :
    ∃ w3 pre certificate result read,
      resourceAppServiceCertificateCreateUpdate env R d w =
        resourceAppServiceCertificateRead env R { d with Id := id } w3 ∧
      w3.calls = w.calls ++ pre ++
        [Call.CreateOrUpdate (getString d.resource_group_name) (getString d.name)
          certificate result none,
         Call.Get (getString d.resource_group_name) (getString d.name) read none] ∧
      read.ID = some id := by
  obtain ⟨gl, hgl, _⟩ := existenceGuard_calls env R d w
  unfold adoptedId at h
  unfold resourceAppServiceCertificateCreateUpdate
  by_cases hnot : getString d.pfx_blob = "" ∧ getString d.key_vault_secret_id = ""
  · simp [hnot] at h
  · simp only [hnot, if_false] at h ⊢
    rcases hg : existenceGuard env R d w with ⟨ge, w1⟩
    rw [hg] at h hgl
    cases ge with
    | some ge => simp at h
    | none =>
      simp only at h hgl ⊢
      obtain ⟨rl, hrl, _⟩ := resolvePayload_calls env R d w1
      rcases hp : resolvePayload env R d w1 with ⟨pr, w2⟩
      rw [hp] at h hrl
      cases pr with
      | error pe => simp at h
      | ok props =>
        simp only at h hrl ⊢
        have hcc := clientCreateOrUpdate_calls R w2 (getString d.resource_group_name)
          (getString d.name) (newCertificate env d props)
        unfold createAndAdopt
        simp only []
        rcases hc : clientCreateOrUpdate R w2 (getString d.resource_group_name)
          (getString d.name) (newCertificate env d props) with ⟨⟨cres, cerr⟩, wc⟩
        rw [hc] at h hcc
        cases cerr with
        | some ce => simp at h
        | none =>
          simp only at h hcc ⊢
          have hgc := clientGet_calls R wc (getString d.resource_group_name) (getString d.name)
          rcases hgt : clientGet R wc (getString d.resource_group_name) (getString d.name)
            with ⟨⟨read, gerr⟩, wg⟩
          rw [hgt] at h hgc
          cases gerr with
          | some ge => simp at h
          | none =>
            simp only at h hgc ⊢
            rw [h]
            exact ⟨wg, gl ++ rl, newCertificate env d props, cres, read, rfl,
              by rw [hgc, hcc, hrl, hgl]; simp, h⟩

/-! ### The claims -/

/-- C2: when both `pfx_blob` and `key_vault_secret_id` are empty, Create/Update
returns the configuration error of line 152, whether or not the resource is
new; the resource data (the retained identity included) is unchanged and so is
the world: no remote call is issued. -/
theorem createUpdate_neither_source {σ : Type} (env : Env) (R : Remote σ) (d : ResourceData)
    (w : World σ) (hpfx : getString d.pfx_blob = "")
    (hkv : getString d.key_vault_secret_id = "") :
    resourceAppServiceCertificateCreateUpdate env R d w =
      (Ret.error Err.eitherMustBeSet, d, w) := by
  simp [resourceAppServiceCertificateCreateUpdate, hpfx, hkv]

/-- Witness of C2 on a new resource without any certificate source. -/
theorem createUpdate_neither_source_witness :
    resourceAppServiceCertificateCreateUpdate sampleEnv scriptedRemote neitherConfig
        ⟨[cert1Found], []⟩ =
      (Ret.error Err.eitherMustBeSet, neitherConfig, ⟨[cert1Found], []⟩) :=
  createUpdate_neither_source sampleEnv scriptedRemote neitherConfig ⟨[cert1Found], []⟩
    (by decide) (by decide)

/-- C5: when the retained id parses and the fetch of Read fails with a
not-found response, Read returns nil, the retained id becomes the empty string,
no other slot of the resource data is written, and the fetch is the only call. -/
theorem read_not_found {σ : Type} (env : Env) (R : Remote σ) (d : ResourceData) (w : World σ)
    (id : CertificateId) (err : Err) (hid : env.CertificateID d.Id = Except.ok id)
    (herr : (R.Get w.remote id.ResourceGroup id.Name).1.2 = some err)
    (hnf : env.ResponseWasNotFound (R.Get w.remote id.ResourceGroup id.Name).1.1.Response
      = true) :
    resourceAppServiceCertificateRead env R d w =
      (Ret.nil, { d with Id := "" },
        { remote := (R.Get w.remote id.ResourceGroup id.Name).2,
          calls := w.calls ++ [Call.Get id.ResourceGroup id.Name
            (R.Get w.remote id.ResourceGroup id.Name).1.1 (some err)] }) := by
  simp [resourceAppServiceCertificateRead, hid, clientGet, herr, hnf]

/-- Witness of C5: the id of `cert1` is retained and the remote no longer has it. -/
theorem read_not_found_witness :
    resourceAppServiceCertificateRead sampleEnv scriptedRemote
        { inlineConfig with Id := cert1Id } ⟨[notFoundAnswer], []⟩ =
      (Ret.nil, { inlineConfig with Id := "" },
        ⟨[], [Call.Get "rg1" "cert1" notFoundAnswer.1 (some (Err.other "not found"))]⟩) :=
  read_not_found sampleEnv scriptedRemote { inlineConfig with Id := cert1Id }
    ⟨[notFoundAnswer], []⟩ ⟨"rg1", "cert1"⟩ (Err.other "not found") (by rfl) (by decide)
    (by decide)

/-- C6: Delete returns an error exactly when the retained id does not parse or
the `Delete` call fails with a response that is not a not-found (so a
not-found failure yields nil); it never panics, it issues either no call or the
single `Delete` call, and it leaves the resource data (the retained identity
included) unchanged. -/
theorem delete_error_iff {σ : Type} (env : Env) (R : Remote σ) (d : ResourceData)
    (w : World σ) :
    ((∃ e, (resourceAppServiceCertificateDelete env R d w).1 = Ret.error e) ↔
      match env.CertificateID d.Id with
      | Except.error _ => True
      | Except.ok id =>
        (R.Delete w.remote id.ResourceGroup id.Name).1.2 ≠ none ∧
        env.ResponseWasNotFound (R.Delete w.remote id.ResourceGroup id.Name).1.1 = false) ∧
    ((resourceAppServiceCertificateDelete env R d w).1 = Ret.nil ∨
      ∃ e, (resourceAppServiceCertificateDelete env R d w).1 = Ret.error e) ∧
    (resourceAppServiceCertificateDelete env R d w).2.1 = d ∧
    ((resourceAppServiceCertificateDelete env R d w).2.2.calls = w.calls ∨
      ∃ resourceGroup name result err,
        (resourceAppServiceCertificateDelete env R d w).2.2.calls =
          w.calls ++ [Call.Delete resourceGroup name result err]) := by
  unfold resourceAppServiceCertificateDelete
  cases hid : env.CertificateID d.Id with
  | error e => simp
  | ok id =>
    simp only [clientDelete]
    cases herr : (R.Delete w.remote id.ResourceGroup id.Name).1.2 with
    | none => simp
    | some e =>
      cases hnf : env.ResponseWasNotFound (R.Delete w.remote id.ResourceGroup id.Name).1.1 <;>
        simp [hnf]

/-- C3: on a first creation with a certificate source set, when the existence
lookup `Get(resource_group, name)` succeeds and returns an object with a
non-empty id, Create/Update returns the import error carrying that id; the
lookup is the only remote call (no `CreateOrUpdate` is issued) and the resource
data is unchanged. -/
theorem createUpdate_already_exists {σ : Type} (env : Env) (R : Remote σ) (d : ResourceData)
    (w : World σ) (id : String) (hnew : d.IsNewResource = true)
    (hsrc : (getString d.pfx_blob ≠ "" ∧ getString d.key_vault_secret_id = "") ∨
      (getString d.pfx_blob = "" ∧ getString d.key_vault_secret_id ≠ ""))
    (hget : (R.Get w.remote (getString d.resource_group_name) (getString d.name)).1.2 = none)
    (hid : (R.Get w.remote (getString d.resource_group_name) (getString d.name)).1.1.ID
      = some id)
    (hne : id ≠ "") :
    resourceAppServiceCertificateCreateUpdate env R d w =
      (Ret.error (Err.importAsExists "azurerm_app_service_certificate" id), d,
        { remote := (R.Get w.remote (getString d.resource_group_name) (getString d.name)).2,
          calls := w.calls ++ [Call.Get (getString d.resource_group_name) (getString d.name)
            (R.Get w.remote (getString d.resource_group_name) (getString d.name)).1.1
            none] }) := by
  have hnot : ¬ (getString d.pfx_blob = "" ∧ getString d.key_vault_secret_id = "") := by
    rintro ⟨h1, h2⟩
    rcases hsrc with ⟨h3, _⟩ | ⟨_, h3⟩
    · exact h3 h1
    · exact h3 h2
  have hg : existenceGuard env R d w =
      (some (Err.importAsExists "azurerm_app_service_certificate" id),
        (clientGet R w (getString d.resource_group_name) (getString d.name)).2) := by
    simp [existenceGuard, hnew, clientGet, hget, hid, hne]
  rw [createUpdate_of_guard_error env R d w _ hnot (by rw [hg]), hg]
  simp [clientGet, hget]

/-- Witness of C3: `cert1` already exists remotely when it is first created. -/
theorem createUpdate_already_exists_witness :
    resourceAppServiceCertificateCreateUpdate sampleEnv scriptedRemote inlineConfig
        ⟨[cert1Found], []⟩ =
      (Ret.error (Err.importAsExists "azurerm_app_service_certificate" cert1Id), inlineConfig,
        ⟨[], [Call.Get "rg1" "cert1" cert1Found.1 none]⟩) :=
  createUpdate_already_exists sampleEnv scriptedRemote inlineConfig ⟨[cert1Found], []⟩ cert1Id
    (by decide) (by decide) (by decide) (by decide) (by decide)

/-- C9: when the payload resolution fails (the blob is set and is not valid
base64, or the vault reference is set and does not parse, or it parses and the
key vault lookup, at the state the remote is in after the existence guard,
returns an error or no id), Create/Update returns an error, the resource data
is unchanged and no `CreateOrUpdate` call is among the calls it issued. -/
theorem createUpdate_resolution_failure {σ : Type} (env : Env) (R : Remote σ)
    (d : ResourceData) (w : World σ)
    (h : (getString d.pfx_blob ≠ "" ∧ Base64.DecodeString (getString d.pfx_blob) = none) ∨
      (getString d.key_vault_secret_id ≠ "" ∧
        ∃ e, env.ParseNestedItemID (getString d.key_vault_secret_id) = Except.error e) ∨
      (getString d.key_vault_secret_id ≠ "" ∧
        ∃ p, env.ParseNestedItemID (getString d.key_vault_secret_id) = Except.ok p ∧
          ((R.KeyVaultIDFromBaseUrl (existenceGuard env R d w).2.remote
              p.KeyVaultBaseUrl).1.2 ≠ none ∨
           (R.KeyVaultIDFromBaseUrl (existenceGuard env R d w).2.remote
              p.KeyVaultBaseUrl).1.1 = none))) :
    (∃ e, (resourceAppServiceCertificateCreateUpdate env R d w).1 = Ret.error e) ∧
    (resourceAppServiceCertificateCreateUpdate env R d w).2.1 = d ∧
    (callsSince w (resourceAppServiceCertificateCreateUpdate env R d w).2.2).filter
      Call.isCreateOrUpdate = [] := by
  have hnot : ¬ (getString d.pfx_blob = "" ∧ getString d.key_vault_secret_id = "") := by
    rintro ⟨h1, h2⟩
    rcases h with ⟨h3, _⟩ | ⟨h3, _⟩ | ⟨h3, _⟩
    · exact h3 h1
    · exact h3 h2
    · exact h3 h2
  obtain ⟨gl, hgl, hgf⟩ := existenceGuard_calls env R d w
  obtain ⟨e, he⟩ := resolvePayload_fails env R d (existenceGuard env R d w).2 h
  obtain ⟨rl, hrl, hrf⟩ := resolvePayload_calls env R d (existenceGuard env R d w).2
  cases hg : (existenceGuard env R d w).1 with
  | none =>
    rw [createUpdate_of_resolve_error env R d w e hnot hg he]
    refine ⟨⟨e, rfl⟩, rfl, ?_⟩
    rw [callsSince_of_append w _ (gl ++ rl) (by rw [hrl, hgl, List.append_assoc])]
    simp [hgf, hrf]
  | some ge =>
    rw [createUpdate_of_guard_error env R d w ge hnot hg]
    refine ⟨⟨ge, rfl⟩, rfl, ?_⟩
    rw [callsSince_of_append w _ gl hgl]
    exact hgf

/-- Witness of C9: the blob `a` is not valid base64. -/
theorem createUpdate_resolution_failure_witness :
    (∃ e, (resourceAppServiceCertificateCreateUpdate sampleEnv scriptedRemote
        { inlineConfig with pfx_blob := some "a" } ⟨[notFoundAnswer], []⟩).1 = Ret.error e) ∧
    (resourceAppServiceCertificateCreateUpdate sampleEnv scriptedRemote
        { inlineConfig with pfx_blob := some "a" } ⟨[notFoundAnswer], []⟩).2.1 =
      { inlineConfig with pfx_blob := some "a" } ∧
    (callsSince ⟨[notFoundAnswer], []⟩
      (resourceAppServiceCertificateCreateUpdate sampleEnv scriptedRemote
        { inlineConfig with pfx_blob := some "a" } ⟨[notFoundAnswer], []⟩).2.2).filter
      Call.isCreateOrUpdate = [] :=
  createUpdate_resolution_failure sampleEnv scriptedRemote
    { inlineConfig with pfx_blob := some "a" } ⟨[notFoundAnswer], []⟩
    (Or.inl ⟨by decide, by decide⟩)

/-- C4: when `pfx_blob` is the standard base64 encoding of a non-empty byte
string `b`, `key_vault_secret_id` is empty and the existence guard lets the
operation through, the first call after the guard is the single `CreateOrUpdate`
of the invocation, and the certificate passed to it carries `PfxBlob = b`, the
configured password, and neither a key vault id nor a secret name. -/
theorem createUpdate_inline_payload {σ : Type} (env : Env) (R : Remote σ) (d : ResourceData)
    (w : World σ) (b : List Nat) (hb : ∀ x ∈ b, x < 256) (hne : b ≠ [])
    (hpfx : d.pfx_blob = some (Base64.EncodeToString b))
    (hkv : getString d.key_vault_secret_id = "")
    (hguard : (existenceGuard env R d w).1 = none) :
    ∃ certificate props result err rest,
      (resourceAppServiceCertificateCreateUpdate env R d w).2.2.calls =
        (existenceGuard env R d w).2.calls ++
          Call.CreateOrUpdate (getString d.resource_group_name) (getString d.name)
            certificate result err :: rest ∧
      rest.filter Call.isCreateOrUpdate = [] ∧
      certificate.CertificateProperties = some props ∧
      props.PfxBlob = some b ∧ props.Password = some (getString d.password) ∧
      props.KeyVaultID = none ∧ props.KeyVaultSecretName = none := by
  have hget : getString d.pfx_blob = Base64.EncodeToString b := by simp [getString, hpfx]
  have hpfx2 : getString d.pfx_blob ≠ "" := by
    rw [hget]
    exact fun h => hne ((Base64.EncodeToString_eq_empty b).1 h)
  have hdec : Base64.DecodeString (getString d.pfx_blob) = some b := by
    rw [hget]
    exact Base64.DecodeString_EncodeToString b hb
  have hnot : ¬ (getString d.pfx_blob = "" ∧ getString d.key_vault_secret_id = "") :=
    fun h => hpfx2 h.1
  have hres := resolvePayload_inline env R d (existenceGuard env R d w).2 b hpfx2 hdec hkv
  obtain ⟨result, err, rest, hca, hrest⟩ := createAndAdopt_calls env R d
    (existenceGuard env R d w).2
    { Password := some (getString d.password),
      ServerFarmID :=
        if getString d.app_service_plan_id ≠ "" then some (getString d.app_service_plan_id)
        else none,
      PfxBlob := some b }
  refine ⟨newCertificate env d
    { Password := some (getString d.password),
      ServerFarmID :=
        if getString d.app_service_plan_id ≠ "" then some (getString d.app_service_plan_id)
        else none,
      PfxBlob := some b },
    { Password := some (getString d.password),
      ServerFarmID :=
        if getString d.app_service_plan_id ≠ "" then some (getString d.app_service_plan_id)
        else none,
      PfxBlob := some b }, result, err, rest, ?_, hrest, rfl, rfl, rfl, rfl, rfl⟩
  rw [createUpdate_of_resolved env R d w _ hnot hguard (by rw [hres]), hres]
  exact hca

/-- Witness of C4, the scenario of the specification: `pfx_blob` is
`base64("hello")` and `cert1` does not exist yet. -/
theorem createUpdate_inline_payload_witness :
    ∃ certificate props result err rest,
      (resourceAppServiceCertificateCreateUpdate sampleEnv scriptedRemote inlineConfig
        ⟨[notFoundAnswer, cert1Found, cert1Found], []⟩).2.2.calls =
        (existenceGuard sampleEnv scriptedRemote inlineConfig
          ⟨[notFoundAnswer, cert1Found, cert1Found], []⟩).2.calls ++
          Call.CreateOrUpdate (getString inlineConfig.resource_group_name)
            (getString inlineConfig.name) certificate result err :: rest ∧
      rest.filter Call.isCreateOrUpdate = [] ∧
      certificate.CertificateProperties = some props ∧
      props.PfxBlob = some [104, 101, 108, 108, 111] ∧
      props.Password = some (getString inlineConfig.password) ∧
      props.KeyVaultID = none ∧ props.KeyVaultSecretName = none :=
  createUpdate_inline_payload sampleEnv scriptedRemote inlineConfig
    ⟨[notFoundAnswer, cert1Found, cert1Found], []⟩ [104, 101, 108, 108, 111]
    (by decide) (by decide) (by decide) (by decide) (by decide)

/-- C7, as the code has it: the retained id is set at line 220, as soon as the
confirmation fetch has returned an id and before the delegated Read.  Whenever
Create/Update returns an error: if the invocation returned before line 220,
the resource data (the retained identity included) is what it was before the
call; if it reached line 220 with the id `id`, that is the `CreateOrUpdate`
call and the confirmation fetch both succeeded and the fetch returned `id`,
then the whole outcome is the one of Read run on the resource data with `id`
retained, and the retained identity after the call is `id`. -/
theorem createUpdate_error_identity {σ : Type} (env : Env) (R : Remote σ) (d : ResourceData)
    (w : World σ) (e : Err)
    (h : (resourceAppServiceCertificateCreateUpdate env R d w).1 = Ret.error e) :
    (adoptedId env R d w = none ∧
      (resourceAppServiceCertificateCreateUpdate env R d w).2.1 = d) ∨
    ∃ id, adoptedId env R d w = some id ∧
      (resourceAppServiceCertificateCreateUpdate env R d w).2.1.Id = id ∧
      ∃ w3 pre certificate result read,
        resourceAppServiceCertificateCreateUpdate env R d w =
          resourceAppServiceCertificateRead env R { d with Id := id } w3 ∧
        w3.calls = w.calls ++ pre ++
          [Call.CreateOrUpdate (getString d.resource_group_name) (getString d.name)
            certificate result none,
           Call.Get (getString d.resource_group_name) (getString d.name) read none] ∧
        read.ID = some id := by
  cases ha : adoptedId env R d w with
  | none => exact Or.inl ⟨rfl, createUpdate_of_not_adopted env R d w ha⟩
  | some id =>
    obtain ⟨w3, pre, certificate, result, read, heq, hcalls, hid⟩ :=
      createUpdate_of_adopted env R d w id ha
    refine Or.inr ⟨id, rfl, ?_, w3, pre, certificate, result, read, heq, hcalls, hid⟩
    rw [heq] at h ⊢
    exact read_error_id env R { d with Id := id } w3 e h

/-- Witness of C7 as amended: the write and the confirmation fetch succeed and
the fetch of the delegated Read fails with status 500. -/
theorem createUpdate_error_identity_witness :
    (adoptedId sampleEnv scriptedRemote inlineConfig
        ⟨[notFoundAnswer, cert1Found, serverErrorAnswer], []⟩ = none ∧
      (resourceAppServiceCertificateCreateUpdate sampleEnv scriptedRemote inlineConfig
        ⟨[notFoundAnswer, cert1Found, serverErrorAnswer], []⟩).2.1 = inlineConfig) ∨
    ∃ id, adoptedId sampleEnv scriptedRemote inlineConfig
        ⟨[notFoundAnswer, cert1Found, serverErrorAnswer], []⟩ = some id ∧
      (resourceAppServiceCertificateCreateUpdate sampleEnv scriptedRemote inlineConfig
        ⟨[notFoundAnswer, cert1Found, serverErrorAnswer], []⟩).2.1.Id = id ∧
      ∃ w3 pre certificate result read,
        resourceAppServiceCertificateCreateUpdate sampleEnv scriptedRemote inlineConfig
            ⟨[notFoundAnswer, cert1Found, serverErrorAnswer], []⟩ =
          resourceAppServiceCertificateRead sampleEnv scriptedRemote
            { inlineConfig with Id := id } w3 ∧
        w3.calls = [] ++ pre ++
          [Call.CreateOrUpdate (getString inlineConfig.resource_group_name)
            (getString inlineConfig.name) certificate result none,
           Call.Get (getString inlineConfig.resource_group_name)
            (getString inlineConfig.name) read none] ∧
        read.ID = some id :=
  createUpdate_error_identity sampleEnv scriptedRemote inlineConfig
    ⟨[notFoundAnswer, cert1Found, serverErrorAnswer], []⟩
    (Err.makingReadRequest "cert1" "rg1" (Err.other "internal server error")) (by decide)

/-- C7 fails as stated: the write and the confirmation fetch succeed, the
fetch of the delegated Read fails with status 500; Create/Update returns an
error and the retained identity, empty before the call, is the id of `cert1`
after it. -/
theorem createUpdate_error_identity_counterexample :
    (resourceAppServiceCertificateCreateUpdate sampleEnv scriptedRemote inlineConfig
      ⟨[notFoundAnswer, cert1Found, serverErrorAnswer], []⟩).1 =
      Ret.error (Err.makingReadRequest "cert1" "rg1" (Err.other "internal server error")) ∧
    inlineConfig.Id = "" ∧
    (resourceAppServiceCertificateCreateUpdate sampleEnv scriptedRemote inlineConfig
      ⟨[notFoundAnswer, cert1Found, serverErrorAnswer], []⟩).2.1.Id = cert1Id ∧
    (resourceAppServiceCertificateCreateUpdate sampleEnv scriptedRemote inlineConfig
      ⟨[notFoundAnswer, cert1Found, serverErrorAnswer], []⟩).2.1.Id ≠ inlineConfig.Id ∧
    (resourceAppServiceCertificateCreateUpdate sampleEnv scriptedRemote inlineConfig
      ⟨[notFoundAnswer, cert1Found, serverErrorAnswer], []⟩).2.2.calls.drop 2 =
      [Call.Get "rg1" "cert1" cert1Found.1 none,
       Call.Get "rg1" "cert1" serverErrorAnswer.1 serverErrorAnswer.2] ∧
    adoptedId sampleEnv scriptedRemote inlineConfig
      ⟨[notFoundAnswer, cert1Found, serverErrorAnswer], []⟩ = some cert1Id := by
  decide

/-- C8, as the code has it: whenever Create/Update returns nil, the
`CreateOrUpdate` call and the confirmation fetch succeeded, the confirmation
fetch returned an id that the identity codec parses, and the delegated Read
issued one more fetch: either that fetch succeeded and the retained identity is
the id returned by the confirmation fetch, or it failed with a not-found
response and the retained identity is the empty string. -/
theorem createUpdate_nil_identity {σ : Type} (env : Env) (R : Remote σ) (d : ResourceData)
    (w : World σ) (h : (resourceAppServiceCertificateCreateUpdate env R d w).1 = Ret.nil) :
    ∃ pre certificate result read id pid fetched ferr,
      (resourceAppServiceCertificateCreateUpdate env R d w).2.2.calls =
        w.calls ++ pre ++
          [Call.CreateOrUpdate (getString d.resource_group_name) (getString d.name)
            certificate result none,
           Call.Get (getString d.resource_group_name) (getString d.name) read none,
           Call.Get pid.ResourceGroup pid.Name fetched ferr] ∧
      read.ID = some id ∧ env.CertificateID id = Except.ok pid ∧
      ((ferr = none ∧ (resourceAppServiceCertificateCreateUpdate env R d w).2.1.Id = id) ∨
       (ferr ≠ none ∧ env.ResponseWasNotFound fetched.Response = true ∧
          (resourceAppServiceCertificateCreateUpdate env R d w).2.1.Id = "")) := by
  rcases createUpdate_cases env R d w with ⟨e2, w2, heq⟩ | ⟨props, w2, pre, hw2, heq⟩
  · rw [heq] at h
    cases h
  · rw [heq] at h ⊢
    obtain ⟨certificate, result, read, id, pid, fetched, ferr, hcalls, hid, hpid, hcase⟩ :=
      createAndAdopt_nil env R d w2 props h
    exact ⟨pre, certificate, result, read, id, pid, fetched, ferr, by rw [hcalls, hw2], hid,
      hpid, hcase⟩

/-- Witness of C8 as amended: the scenario of the specification, in which all
three fetches and the write succeed. -/
theorem createUpdate_nil_identity_witness :
    ∃ pre certificate result read id pid fetched ferr,
      (resourceAppServiceCertificateCreateUpdate sampleEnv scriptedRemote inlineConfig
        ⟨[notFoundAnswer, cert1Found, cert1Found], []⟩).2.2.calls =
        [] ++ pre ++
          [Call.CreateOrUpdate (getString inlineConfig.resource_group_name)
            (getString inlineConfig.name) certificate result none,
           Call.Get (getString inlineConfig.resource_group_name)
            (getString inlineConfig.name) read none,
           Call.Get pid.ResourceGroup pid.Name fetched ferr] ∧
      read.ID = some id ∧ sampleEnv.CertificateID id = Except.ok pid ∧
      ((ferr = none ∧
          (resourceAppServiceCertificateCreateUpdate sampleEnv scriptedRemote inlineConfig
            ⟨[notFoundAnswer, cert1Found, cert1Found], []⟩).2.1.Id = id) ∨
       (ferr ≠ none ∧ sampleEnv.ResponseWasNotFound fetched.Response = true ∧
          (resourceAppServiceCertificateCreateUpdate sampleEnv scriptedRemote inlineConfig
            ⟨[notFoundAnswer, cert1Found, cert1Found], []⟩).2.1.Id = "")) :=
  createUpdate_nil_identity sampleEnv scriptedRemote inlineConfig
    ⟨[notFoundAnswer, cert1Found, cert1Found], []⟩ (by decide)

/-- C8 fails as stated: the write and the confirmation fetch succeed, the
confirmation fetch returns the id of `cert1`, and the fetch of the delegated
Read answers not-found; Create/Update returns nil with an empty retained
identity. -/
theorem createUpdate_nil_identity_counterexample :
    (resourceAppServiceCertificateCreateUpdate sampleEnv scriptedRemote inlineConfig
      ⟨[notFoundAnswer, cert1Found, notFoundAnswer], []⟩).1 = Ret.nil ∧
    (resourceAppServiceCertificateCreateUpdate sampleEnv scriptedRemote inlineConfig
      ⟨[notFoundAnswer, cert1Found, notFoundAnswer], []⟩).2.1.Id = "" ∧
    (resourceAppServiceCertificateCreateUpdate sampleEnv scriptedRemote inlineConfig
      ⟨[notFoundAnswer, cert1Found, notFoundAnswer], []⟩).2.2.calls.drop 2 =
      [Call.Get "rg1" "cert1" cert1Found.1 none,
       Call.Get "rg1" "cert1" notFoundAnswer.1 notFoundAnswer.2] ∧
    cert1Found.1.ID = some cert1Id ∧ cert1Id ≠ "" := by
  decide

/-- C10, the code at the failing inputs: the fetch of Read succeeds and
returns an object whose certificate properties are present while its issue
date, or its expiration date, is absent; Read ends in a nil pointer
dereference instead of returning. -/
theorem read_absent_date_panics :
    (resourceAppServiceCertificateRead sampleEnv scriptedRemote
      { inlineConfig with Id := cert1Id } ⟨[cert1WithoutIssueDate], []⟩).1 =
      Ret.nilPointerDereference ∧
    (resourceAppServiceCertificateRead sampleEnv scriptedRemote
      { inlineConfig with Id := cert1Id } ⟨[cert1WithoutExpirationDate], []⟩).1 =
      Ret.nilPointerDereference := by
  decide

end AppServiceCertificate

